import Mathlib

/-!
Shallow embedding of `tc_dl.py` (Twitch clip downloader) and verification of
the specification claims about it.

Modelling conventions:
 * Python `datetime` values are represented as calendar records (`Date`,
   `DateTime`); comparison of datetimes is lexicographic on the components,
   as in CPython.
 * Network and filesystem effects are captured by a `World` oracle supplying
   the responses, and every effectful function additionally returns the list
   of external calls (`NetEvent`) it performed, in order.
 * `None`-able Python values are `Option`; Python string truthiness
   (`if not s`) is emptiness of the string.
 * Regex character classes (`\w`, `\s`) are modelled over the ASCII range,
   which covers every string the claims mention.
-/

namespace TcDl

/-! ### Calendar arithmetic (model of `datetime.date` / `datetime.datetime`) -/

/-- Calendar date, as held by a Python `datetime.date`. -/
structure Date where
  year : Nat
  month : Nat
  day : Nat
deriving Repr, DecidableEq

/-- Date plus a time of day, as held by a Python `datetime.datetime`
(microseconds are always zero in this program). -/
structure DateTime where
  date : Date
  hour : Nat
  minute : Nat
  second : Nat
deriving Repr, DecidableEq

/-- Leap-year test, as in the Gregorian calendar used by `datetime`. -/
def isLeapYear (y : Nat) : Bool :=
  (y % 4 == 0 && y % 100 != 0) || y % 400 == 0

/-- Number of days in a month of a given year. -/
def daysInMonth (y m : Nat) : Nat :=
  if m = 2 then (if isLeapYear y then 29 else 28)
  else if m = 4 ∨ m = 6 ∨ m = 9 ∨ m = 11 then 30
  else 31

/-- Validity of a calendar date per `datetime` (`MINYEAR = 1`, `MAXYEAR = 9999`). -/
def isValidDate (y m d : Nat) : Bool :=
  1 ≤ y && y ≤ 9999 && 1 ≤ m && m ≤ 12 && 1 ≤ d && d ≤ daysInMonth y m

/-- Valid date as a proposition. -/
def Date.Valid (d : Date) : Prop := isValidDate d.year d.month d.day = true

/-- Successor day with month/year rollover (`+ timedelta(days=1)` on a date). -/
def nextDay (d : Date) : Date :=
  if d.day < daysInMonth d.year d.month then { d with day := d.day + 1 }
  else if d.month < 12 then ⟨d.year, d.month + 1, 1⟩
  else ⟨d.year + 1, 1, 1⟩

/-- Predecessor day with month/year rollover. -/
def prevDay (d : Date) : Date :=
  if 1 < d.day then { d with day := d.day - 1 }
  else if 1 < d.month then ⟨d.year, d.month - 1, daysInMonth d.year (d.month - 1)⟩
  else ⟨d.year - 1, 12, 31⟩

/-- Subtracting `timedelta(seconds=1)` from a datetime. -/
def subOneSecond (t : DateTime) : DateTime :=
  if 0 < t.second then { t with second := t.second - 1 }
  else if 0 < t.minute then { t with minute := t.minute - 1, second := 59 }
  else if 0 < t.hour then { t with hour := t.hour - 1, minute := 59, second := 59 }
  else { date := prevDay t.date, hour := 23, minute := 59, second := 59 }

/-- Adding whole days to a date (`timedelta(days=n)`). -/
def addDays (d : Date) : Nat → Date
  | 0 => d
  | n + 1 => nextDay (addDays d n)

/-- Adding seconds to a datetime (`timedelta(seconds=n)`), used when the token
manager computes `now + expires_in`. -/
def addSeconds (t : DateTime) (n : Nat) : DateTime :=
  let total := t.hour * 3600 + t.minute * 60 + t.second + n
  let dayCount := total / 86400
  let rem := total % 86400
  { date := addDays t.date dayCount
    hour := rem / 3600
    minute := rem / 60 % 60
    second := rem % 60 }

/-- Lexicographic strict comparison of datetimes, as CPython compares
`datetime` objects componentwise. -/
def DateTime.ltb (a b : DateTime) : Bool :=
  if a.date.year ≠ b.date.year then a.date.year < b.date.year
  else if a.date.month ≠ b.date.month then a.date.month < b.date.month
  else if a.date.day ≠ b.date.day then a.date.day < b.date.day
  else if a.hour ≠ b.hour then a.hour < b.hour
  else if a.minute ≠ b.minute then a.minute < b.minute
  else a.second < b.second

/-! ### Digit parsing and zero-padded printing -/

/-- Value of a decimal digit character. -/
def digitVal (c : Char) : Option Nat :=
  if c.isDigit then some (c.toNat - 48) else none

/-- Character for a decimal digit value (0–9). -/
def digitToChar (n : Nat) : Char :=
  match n with
  | 0 => '0' | 1 => '1' | 2 => '2' | 3 => '3' | 4 => '4'
  | 5 => '5' | 6 => '6' | 7 => '7' | 8 => '8' | _ => '9'

/-- Two-digit zero-padded decimal rendering (`%02d`). -/
def pad2c (n : Nat) : List Char := [digitToChar (n / 10), digitToChar (n % 10)]

/-- Four-digit zero-padded decimal rendering (`%04d`, i.e. `%Y`). -/
def pad4c (n : Nat) : List Char :=
  [digitToChar (n / 1000), digitToChar (n / 100 % 10),
   digitToChar (n / 10 % 10), digitToChar (n % 10)]

/-- Character list of `date.isoformat()`: `YYYY-MM-DD`. -/
def dateChars (d : Date) : List Char :=
  pad4c d.year ++ '-' :: (pad2c d.month ++ '-' :: pad2c d.day)

/-- Rendering of `date.isoformat()` as a string. -/
def dateStr (d : Date) : String := String.mk (dateChars d)

/-- Character list of `datetime.isoformat()` with zero microseconds:
`YYYY-MM-DDTHH:MM:SS`. -/
def dtIsoChars (t : DateTime) : List Char :=
  dateChars t.date ++ 'T' :: (pad2c t.hour ++ ':' :: (pad2c t.minute ++ ':' :: pad2c t.second))

/-- Rendering of `datetime.isoformat()` as a string. -/
def dtIso (t : DateTime) : String := String.mk (dtIsoChars t)

/-- Rendering of `datetime.strftime("%Y-%m-%d %H:%M:%S")`, the format used for `expires_at`. -/
def dtStrftime (t : DateTime) : String :=
  String.mk (dateChars t.date ++ ' ' ::
    (pad2c t.hour ++ ':' :: (pad2c t.minute ++ ':' :: pad2c t.second)))

/-- Parse two decimal digit characters. -/
def parse2 (a b : Char) : Option Nat :=
  match digitVal a, digitVal b with
  | some x, some y => some (10 * x + y)
  | _, _ => none

/-- Parse four decimal digit characters. -/
def parse4 (a b c d : Char) : Option Nat :=
  match digitVal a, digitVal b, digitVal c, digitVal d with
  | some x, some y, some z, some w => some (1000 * x + 100 * y + 10 * z + w)
  | _, _, _, _ => none

/-- Model of `datetime.fromisoformat` restricted to the day-granularity `YYYY-MM-DD`
inputs this program prompts for; any other shape raises `ValueError` (`none`). -/
def fromisoformat (s : String) : Option Date :=
  match s.toList with
  | [y1, y2, y3, y4, '-', m1, m2, '-', d1, d2] =>
    match parse4 y1 y2 y3 y4, parse2 m1 m2, parse2 d1 d2 with
    | some y, some m, some d =>
      if isValidDate y m d then some ⟨y, m, d⟩ else none
    | _, _, _ => none
  | _ => none

/-- Model of `datetime.strptime(s, "%Y-%m-%d %H:%M:%S")` on the zero-padded strings this
program stores in `expires_at`; anything else raises `ValueError` (`none`). -/
def strptimeTokenFormat (s : String) : Option DateTime :=
  match s.toList with
  | [y1, y2, y3, y4, '-', m1, m2, '-', d1, d2, ' ', h1, h2, ':', n1, n2, ':', s1, s2] =>
    match parse4 y1 y2 y3 y4, parse2 m1 m2, parse2 d1 d2,
        parse2 h1 h2, parse2 n1 n2, parse2 s1 s2 with
    | some y, some mo, some d, some h, some mi, some sec =>
      if isValidDate y mo d && h ≤ 23 && mi ≤ 59 && sec ≤ 59 then
        some ⟨⟨y, mo, d⟩, h, mi, sec⟩
      else none
    | _, _, _, _, _, _ => none
  | _ => none

/-! ### Configuration store (model of the `config` dictionary) -/

/-- The `auth` section of `config.json`; `none` models an absent key. -/
structure AuthSection where
  client_id : Option String := none
  client_secret : Option String := none
  access_token : Option String := none
  expires_at : Option String := none
deriving Repr, DecidableEq

/-- The `user` section of `config.json`; `none` models an absent key. -/
structure UserSection where
  default_user_name : Option String := none
  spacer : Option String := none
  dl_folder : Option String := none
deriving Repr, DecidableEq

/-- The loaded configuration dictionary (a missing section is the record with
all fields `none`, matching `config.get(section, {})`). -/
structure Config where
  user : UserSection := {}
  auth : AuthSection := {}
deriving Repr, DecidableEq

/-- Result of `get_auth_config()`: every field defaulted to `""`. -/
structure AuthConfig where
  client_id : String
  client_secret : String
  access_token : String
  expires_at : String
deriving Repr, DecidableEq

/-- Embedding of `get_auth_config()` from the source. -/
def get_auth_config (cfg : Config) : AuthConfig :=
  { client_id := cfg.auth.client_id.getD ""
    client_secret := cfg.auth.client_secret.getD ""
    access_token := cfg.auth.access_token.getD ""
    expires_at := cfg.auth.expires_at.getD "" }

/-- Result of `get_user_config()`: `spacer` is defaulted, the other two fields
keep Python's `None` when absent. -/
structure UserConfig where
  default_user_name : Option String
  spacer : String
  dl_folder : Option String
deriving Repr, DecidableEq

/-- Embedding of `get_user_config()` from the source. -/
def get_user_config (cfg : Config) : UserConfig :=
  { default_user_name := cfg.user.default_user_name
    spacer := cfg.user.spacer.getD " ¦ "
    dl_folder := cfg.user.dl_folder }

/-! ### External world and event trace -/

/-- A clip record as produced by the clips endpoint; `none` models a missing
JSON key (the code reads every field except `id` via `.get`). -/
structure Clip where
  id : String
  url : Option String := none
  title : Option String := none
  creator_name : Option String := none
  broadcaster_name : Option String := none
  game_id : Option String := none
  created_at : Option String := none
deriving Repr, DecidableEq

/-- One page of the clips endpoint: the `data` list and the pagination cursor
(`none` models an absent cursor key). -/
structure ClipsPage where
  data : List Clip
  cursor : Option String
deriving Repr, DecidableEq

/-- External calls the program can make, recorded in order of occurrence. -/
inductive NetEvent where
  /-- GET on the token-introspection endpoint with the given bearer token. -/
  | validateToken (token : String)
  /-- POST on the OAuth token endpoint. -/
  | tokenRequest
  /-- GET on the users endpoint for the given login. -/
  | usersLookup (login : String)
  /-- GET on the clips endpoint. -/
  | clipsRequest (broadcaster : Option String) (first : Nat)
      (started ended : String) (after : Option String)
  /-- GET on the games endpoint for the given category id. -/
  | gamesRequest (id : String)
  /-- Invocation of the external downloader (`yt-dlp`) on the given URL. -/
  | download (url : String)
deriving Repr, DecidableEq

/-- Is this event an invocation of the transfer collaborator? -/
def NetEvent.isDownload : NetEvent → Bool
  | .download _ => true
  | _ => false

/-- Deterministic oracle for every external interaction of one run.
`none` responses model `requests.exceptions.RequestException` (including
non-2xx turned into exceptions by `raise_for_status`). -/
structure World where
  /-- Value of `datetime.now()` during the run. -/
  now : DateTime
  /-- HTTP status returned by the token-introspection endpoint. -/
  validateStatus : Nat
  /-- Response of the OAuth token endpoint: `access_token` and `expires_in`. -/
  tokenResponse : Option (String × Nat)
  /-- Response of the users endpoint: the list of ids in `data`. -/
  usersResponse : String → Option (List String)
  /-- Successive page responses of the clips endpoint for a given page size;
  the run terminates with whatever portion of this list it consumes. -/
  clipsPages : Nat → List (Option ClipsPage)
  /-- Response of the games endpoint: `some (some n)` is a hit with name `n`,
  `some none` an empty `data` array, `none` a request exception. -/
  gamesResponse : String → Option (Option String)
  /-- Does a file exist at the given path? -/
  fileExists : String → Bool
  /-- Does the external downloader succeed on the given URL? -/
  ytOk : String → Bool

/-! ### Token manager -/

/-- Embedding of `is_token_valid()` from the source: requires a non-empty stored
`access_token`, a present `expires_at` that `strptime` accepts and that lies
strictly in the future, and then always performs the remote introspection
round-trip, succeeding only on HTTP 200. -/
def is_token_valid (cfg : Config) (w : World) : Bool × List NetEvent :=
  let auth := cfg.auth
  match auth.access_token with
  | none => (false, [])
  | some tok =>
    if tok = "" then (false, [])
    else
      match auth.expires_at with
      | none => (false, [])
      | some s =>
        match strptimeTokenFormat s with
        | none => (false, [])
        | some expires_at =>
          if w.now.ltb expires_at then
            ((w.validateStatus == 200), [NetEvent.validateToken tok])
          else (false, [])

/-- Python `x or y` for an optional string falling back to a string. -/
def pyOr (a : Option String) (b : String) : String :=
  match a with
  | some s => if s = "" then b else s
  | none => b

/-- Embedding of `manage_twitch_oauth_token()` from the source. Returns the token response
(`none` on any failure), the updated configuration, and the trace. With
missing `client_id`/`client_secret` it fails before any network call. -/
def manage_twitch_oauth_token (cfg : Config) (w : World)
    (client_id? client_secret? : Option String) :
    Option (String × Nat) × Config × List NetEvent :=
  let auth := get_auth_config cfg
  let client_id := pyOr client_id? auth.client_id
  let client_secret := pyOr client_secret? auth.client_secret
  if client_id = "" ∨ client_secret = "" then (none, cfg, [])
  else
    match w.tokenResponse with
    | none => (none, cfg, [NetEvent.tokenRequest])
    | some (access_token, expires_in) =>
      let formatted_date := dtStrftime (addSeconds w.now expires_in)
      let cfg' : Config :=
        { cfg with auth :=
          { client_id := some client_id
            client_secret := some client_secret
            access_token := some access_token
            expires_at := some formatted_date } }
      (some (access_token, expires_in), cfg', [NetEvent.tokenRequest])

/-! ### Catalog client -/

/-- Embedding of `input_channel_name()` resolution: the typed name, or the configured
default when the typed name strips to empty. -/
def input_channel_name (typed : String) (cfg : Config) : String :=
  if typed = "" then (get_user_config cfg).default_user_name.getD "" else typed

/-- Embedding of `get_broadcaster_id()` from the source: an empty `data` array exits with
code 1 (`Except.error 1`); a request exception prints and returns `None`
(`Except.ok none`); otherwise the first id is returned. -/
def get_broadcaster_id (w : World) (user_name : String) :
    Except Nat (Option String) × List NetEvent :=
  match w.usersResponse user_name with
  | none => (Except.ok none, [NetEvent.usersLookup user_name])
  | some [] => (Except.error 1, [NetEvent.usersLookup user_name])
  | some (id :: _) => (Except.ok (some id), [NetEvent.usersLookup user_name])

/-- Lexicographic comparison of character lists by code point, which is how
Python compares strings. -/
def listLtb : List Char → List Char → Bool
  | _, [] => false
  | [], _ :: _ => true
  | a :: as, b :: bs =>
    if a.toNat < b.toNat then true
    else if b.toNat < a.toNat then false
    else listLtb as bs

/-- Python's `str.__lt__`. -/
def strLtb (a b : String) : Bool := listLtb a.toList b.toList

/-- Embedding of `input_time_range()` from the source: parse both dates (exit 1 on
`ValueError`), derive the start-of-day and `+1 day − 1 second` timestamps with
a trailing `"Z"`, exit 1 when the start string compares greater than the end
string. The returned event list is the network trace of the function, which
is empty: the function performs no network call. -/
def input_time_range (start_date end_date : String) :
    Except Nat (String × String) × List NetEvent :=
  match fromisoformat start_date, fromisoformat end_date with
  | some sd, some ed =>
    let start_timestamp := dtIso ⟨sd, 0, 0, 0⟩ ++ "Z"
    let end_timestamp := dtIso (subOneSecond ⟨nextDay ed, 0, 0, 0⟩) ++ "Z"
    if strLtb end_timestamp start_timestamp then (Except.error 1, [])
    else (Except.ok (start_timestamp, end_timestamp), [])
  | _, _ => (Except.error 1, [])

/-- Loop body of `fetch_clips` in `get_clips`: fold the `data` array into the
accumulated clips, skipping ids already seen. -/
def addClips (clips : List Clip) (seen : List String) :
    List Clip → List Clip × List String
  | [] => (clips, seen)
  | c :: rest =>
    if seen.contains c.id then addClips clips seen rest
    else addClips (clips ++ [c]) (seen ++ [c.id]) rest

/-- The `while True` pagination loop of `fetch_clips(limit)`. Each element of
`pages` is the response to one request (`none` = request exception, which
breaks the loop keeping prior results); an absent or empty cursor also breaks
the loop. -/
def fetchClipsLoop (broadcaster : Option String) (limit : Nat)
    (started ended : String) :
    List (Option ClipsPage) → Option String → List Clip → List String →
    List Clip × List String × List NetEvent
  | [], _, clips, seen => (clips, seen, [])
  | page :: rest, cursor, clips, seen =>
    let ev := NetEvent.clipsRequest broadcaster limit started ended cursor
    match page with
    | none => (clips, seen, [ev])
    | some pg =>
      let (clips', seen') := addClips clips seen pg.data
      match pg.cursor with
      | none => (clips', seen', [ev])
      | some c =>
        if c = "" then (clips', seen', [ev])
        else
          let (clips'', seen'', t) :=
            fetchClipsLoop broadcaster limit started ended rest (some c) clips' seen'
          (clips'', seen'', ev :: t)

/-- Sort key used by `clips.sort(key=lambda x: x["created_at"])`. -/
def createdKey (c : Clip) : String := c.created_at.getD ""

/-- The comparison relation of the final sort. -/
def createdLe (a b : Clip) : Prop := createdKey a ≤ createdKey b

instance : DecidableRel createdLe := fun a b =>
  inferInstanceAs (Decidable (createdKey a ≤ createdKey b))

instance : IsTotal Clip createdLe := ⟨fun a b => le_total (createdKey a) (createdKey b)⟩

instance : IsTrans Clip createdLe := ⟨fun _ _ _ h h' => le_trans h h'⟩

/-- Embedding of `get_clips()` from the source: two fetch passes with page sizes 2 and 99
sharing one de-duplication set, then a sort ascending by `created_at`. -/
def get_clips (w : World) (broadcaster_id : Option String)
    (start_timestamp end_timestamp : String) : List Clip × List NetEvent :=
  let (c1, s1, t1) :=
    fetchClipsLoop broadcaster_id 2 start_timestamp end_timestamp
      (w.clipsPages 2) none [] []
  let (c2, _, t2) :=
    fetchClipsLoop broadcaster_id 99 start_timestamp end_timestamp
      (w.clipsPages 99) none c1 s1
  (List.insertionSort createdLe c2, t1 ++ t2)

/-- Association-list lookup, modelling `game_id in game_cache` plus
`game_cache[game_id]`. -/
def cacheLookup (cache : List (String × String)) (k : String) : Option String :=
  match cache with
  | [] => none
  | (k', v) :: rest => if k' = k then some v else cacheLookup rest k

/-- Association-list store, modelling `game_cache[game_id] = name`. -/
def cacheInsert (cache : List (String × String)) (k v : String) :
    List (String × String) :=
  (k, v) :: cache

/-- Embedding of `get_game_name()` from the source: cache hit answers locally; a miss
performs the remote lookup; only a successful lookup is stored in the cache;
every failure (exception or empty `data`) answers `"Unknown"` and leaves the
cache unchanged. -/
def get_game_name (cache : List (String × String)) (w : World) (game_id : String) :
    String × List (String × String) × List NetEvent :=
  match cacheLookup cache game_id with
  | some name => (name, cache, [])
  | none =>
    match w.gamesResponse game_id with
    | none => ("Unknown", cache, [NetEvent.gamesRequest game_id])
    | some none => ("Unknown", cache, [NetEvent.gamesRequest game_id])
    | some (some game_name) =>
      (game_name, cacheInsert cache game_id game_name, [NetEvent.gamesRequest game_id])

/-! ### Download orchestrator -/

/-- ASCII model of the regex class `\w` (word characters). -/
def pyIsWordChar (c : Char) : Bool := c.isAlpha || c.isDigit || c = '_'

/-- ASCII model of the regex class `\s` / `str.isspace`. -/
def pyIsSpace (c : Char) : Bool :=
  c = ' ' || c = '\t' || c = '\n' || c = '\r' || c = '\x0b' || c = '\x0c'

/-- Embedding of `re.sub(r"[^\w\s]", "", s)`: delete every character that is neither a
word character nor whitespace. -/
def removeNonWordSpace (s : String) : String :=
  String.mk (s.toList.filter fun c => pyIsWordChar c || pyIsSpace c)

/-- Embedding of `str.strip()`: drop leading and trailing whitespace. -/
def pyStrip (s : String) : String :=
  String.mk (((s.toList.dropWhile pyIsSpace).reverse.dropWhile pyIsSpace).reverse)

/-- The sanitization applied to free-text fields in `download_clips`:
`re.sub(r"[^\w\s]", "", x).strip()`. -/
def sanitize (s : String) : String := pyStrip (removeNonWordSpace s)

/-- Sanitization as the claim words it, for comparison: remove exactly the
characters outside the alphanumeric/whitespace set, and nothing else. -/
def sanitizeClaim (s : String) : String :=
  String.mk (s.toList.filter fun c => c.isAlphanum || pyIsSpace c)

/-- Embedding of `os.path.join` for the non-absolute second argument (POSIX form). -/
def pathJoin (a b : String) : String :=
  if a = "" then b
  else if a.endsWith "/" then a ++ b
  else a ++ "/" ++ b

/-- The `clip_date` extraction: `clip.get("created_at", "").split("T")[0]`. -/
def clipDate (c : Clip) : String :=
  ((c.created_at.getD "").splitOn "T").headD ""

/-- Does a clip carry the essential fields (URL and date) that
`download_clips` requires before it records a path? -/
def hasEssential (c : Clip) : Bool :=
  !(c.url.getD "" == "") && !(clipDate c == "")

/-- The file name `download_clips` derives for a clip, given the already
resolved game name. -/
def fileNameOf (spacer : String) (clip : Clip) (game_name : String) : String :=
  clipDate clip ++ spacer ++ sanitize game_name ++ spacer ++
    sanitize (clip.title.getD "untitled") ++ spacer ++
    sanitize (clip.creator_name.getD "unknown") ++ ".mp4"

/-- Embedding of `download_clips()` from the source, threading the in-memory game cache.
Per clip: sanitize the text fields, resolve the game name (a remote call on a
cache miss), skip the clip when URL or date is missing, record the path
without transfer when the file already exists or in simulation mode, and
otherwise delegate to the external downloader, dropping the path when that
raises. The model assumes a configured download folder (the code would raise
a `TypeError` on `os.path.join(None, ...)` otherwise). -/
def download_clips (w : World) (ucfg : UserConfig) (simulation_mode : Bool) :
    List Clip → List (String × String) →
    List String × List (String × String) × List NetEvent
  | [], cache => ([], cache, [])
  | clip :: rest, cache =>
    let clip_url := clip.url.getD ""
    let clip_date := clipDate clip
    let game_id := clip.game_id.getD "0"
    let (game_name, cache1, ev1) := get_game_name cache w game_id
    if clip_url = "" ∨ clip_date = "" then
      let (ps, c2, t2) := download_clips w ucfg simulation_mode rest cache1
      (ps, c2, ev1 ++ t2)
    else
      let file_name := fileNameOf ucfg.spacer clip game_name
      let file_path := pathJoin (ucfg.dl_folder.getD "") file_name
      if w.fileExists file_path then
        let (ps, c2, t2) := download_clips w ucfg simulation_mode rest cache1
        (file_path :: ps, c2, ev1 ++ t2)
      else if simulation_mode then
        let (ps, c2, t2) := download_clips w ucfg simulation_mode rest cache1
        (file_path :: ps, c2, ev1 ++ t2)
      else if w.ytOk clip_url then
        let (ps, c2, t2) := download_clips w ucfg simulation_mode rest cache1
        (file_path :: ps, c2, ev1 ++ (NetEvent.download clip_url :: t2))
      else
        let (ps, c2, t2) := download_clips w ucfg simulation_mode rest cache1
        (ps, c2, ev1 ++ (NetEvent.download clip_url :: t2))

/-- The category name a lookup in world `w` settles on, independent of the
cache: the response name on success and `"Unknown"` on any failure. -/
def resolve_game (w : World) (gid : String) : String :=
  match w.gamesResponse gid with
  | some (some n) => n
  | _ => "Unknown"

/-- The target path `download_clips` derives for a clip (with the game name
resolved directly against the world). -/
def derived_path (w : World) (ucfg : UserConfig) (clip : Clip) : String :=
  pathJoin (ucfg.dl_folder.getD "")
    (fileNameOf ucfg.spacer clip (resolve_game w (clip.game_id.getD "0")))

/-- A game cache is coherent with the world when it only holds names the
world's lookup would answer. -/
def CacheCoherent (w : World) (cache : List (String × String)) : Prop :=
  ∀ g n, cacheLookup cache g = some n → w.gamesResponse g = some (some n)

/-! ### Main control flow -/

/-- The interactive inputs of one run. -/
structure Inputs where
  channel_name : String
  start_date : String
  end_date : String
deriving Repr, DecidableEq

/-- The part of `main()` that follows the token check/renewal step, given the
configuration in effect at that point: channel resolution, users lookup, date
prompt, clip fetch, download. The game cache starts empty as at process
start. Returns the collected download paths (or the exit code) and the
network trace of these steps. -/
def mainAfterAuth (cfg1 : Config) (w : World) (inp : Inputs) (simFlag : Bool) :
    Except Nat (List String) × List NetEvent :=
  let user_name := input_channel_name inp.channel_name cfg1
  let (bidE, t3) := get_broadcaster_id w user_name
  match bidE with
  | Except.error n => (Except.error n, t3)
  | Except.ok broadcaster_id =>
    match input_time_range inp.start_date inp.end_date with
    | (Except.error n, t4) => (Except.error n, t3 ++ t4)
    | (Except.ok (start_timestamp, end_timestamp), t4) =>
      let (clips, t5) := get_clips w broadcaster_id start_timestamp end_timestamp
      if clips = [] then (Except.ok [], t3 ++ t4 ++ t5)
      else
        let (paths, _, t6) := download_clips w (get_user_config cfg1) simFlag clips []
        (Except.ok paths, t3 ++ t4 ++ t5 ++ t6)

/-- The body of `main()` after configuration loading (the `-c` branch and the
VLC launch are out of scope): token check and renewal — whose result value is
not inspected by `main` — followed by the authenticated steps. -/
def mainRun (cfg : Config) (w : World) (inp : Inputs) (simFlag : Bool) :
    Except Nat (List String) × List NetEvent :=
  let (valid, t1) := is_token_valid cfg w
  let (cfg1, t2) :=
    if valid then (cfg, ([] : List NetEvent))
    else
      let (_, cfg', t) := manage_twitch_oauth_token cfg w none none
      (cfg', t)
  let (res, t3) := mainAfterAuth cfg1 w inp simFlag
  (res, t1 ++ t2 ++ t3)

/-- The configuration in effect after the token check/renewal step at the top
of `main()` (the renewal result value itself is discarded by `main`). -/
def cfgAfterRenew (cfg : Config) (w : World) : Config :=
  if (is_token_valid cfg w).fst then cfg
  else (manage_twitch_oauth_token cfg w none none).snd.fst

/-! ### Concrete fixtures for witnesses and counterexamples -/

/-- A world whose remote endpoints all fail and whose introspection endpoint
rejects the token. -/
def wReject : World where
  now := ⟨⟨2024, 1, 1⟩, 12, 0, 0⟩
  validateStatus := 401
  tokenResponse := none
  usersResponse := fun _ => none
  clipsPages := fun _ => [some ⟨[], none⟩]
  gamesResponse := fun _ => none
  fileExists := fun _ => false
  ytOk := fun _ => false

/-- The same world with an accepting introspection endpoint and a users
endpoint that finds the channel. -/
def wAccept : World :=
  { wReject with
    validateStatus := 200
    usersResponse := fun _ => some ["12345"] }

/-- Stored credentials whose token expires one second after the fixture
worlds' `now`. -/
def cfgFuture : Config :=
  { auth :=
    { client_id := some "cid"
      client_secret := some "csecret"
      access_token := some "tok"
      expires_at := some "2024-01-01 12:00:01" } }

/-- A configuration with no credentials at all. -/
def cfgEmpty : Config := {}

/-- Fixture interactive inputs. -/
def inpFix : Inputs := ⟨"chan", "2024-01-01", "2024-01-02"⟩

/-- A world whose category lookup succeeds with a fixed name. -/
def wGames : World :=
  { wReject with gamesResponse := fun _ => some (some "Chess") }

/-- A world where every target path already exists on disk. -/
def wFiles : World := { wGames with fileExists := fun _ => true }

/-- A fixture clip with all fields present. -/
def clipFix : Clip :=
  { id := "c1"
    url := some "http://clip"
    title := some "Nice Play!"
    creator_name := some "Ann"
    broadcaster_name := some "Streamer"
    game_id := some "g1"
    created_at := some "2024-01-01T10:00:00Z" }

/-- Fixture user preferences. -/
def ucfgFix : UserConfig :=
  { default_user_name := none
    spacer := " - "
    dl_folder := some "/dl" }

/-! ### Helper lemmas: lexicographic order of the rendered timestamps -/

/-- Strict order on calendar dates (componentwise lexicographic). -/
def Date.Lt (a b : Date) : Prop :=
  a.year < b.year ∨ (a.year = b.year ∧
    (a.month < b.month ∨ (a.month = b.month ∧ a.day < b.day)))

instance : DecidablePred (fun p : Date × Date => Date.Lt p.1 p.2) := fun _ => by
  unfold Date.Lt; infer_instance

instance (a b : Date) : Decidable (Date.Lt a b) := by
  unfold Date.Lt; infer_instance

theorem listLtb_cons_of_lt {a b : Char} (as bs : List Char)
    (h : a.toNat < b.toNat) : listLtb (a :: as) (b :: bs) = true := by
  simp [listLtb, h]

theorem listLtb_cons_of_eq {a b : Char} (as bs : List Char)
    (h : a.toNat = b.toNat) : listLtb (a :: as) (b :: bs) = listLtb as bs := by
  simp [listLtb, h]

theorem listLtb_append_of_eqlen :
    ∀ (p q u v : List Char), p.length = q.length → listLtb p q = true →
      listLtb (p ++ u) (q ++ v) = true
  | [], [], _, _, _, hlt => by simp [listLtb] at hlt
  | [], _ :: _, _, _, hlen, _ => by simp at hlen
  | _ :: _, [], _, _, hlen, _ => by simp at hlen
  | a :: as, b :: bs, u, v, hlen, hlt => by
    by_cases hab : a.toNat < b.toNat
    · exact listLtb_cons_of_lt (as ++ u) (bs ++ v) hab
    · by_cases hba : b.toNat < a.toNat
      · simp [listLtb, hab, hba] at hlt
      · have heq : a.toNat = b.toNat := by omega
        rw [listLtb_cons_of_eq as bs heq] at hlt
        have := listLtb_append_of_eqlen as bs u v (by simpa using hlen) hlt
        simpa [listLtb_cons_of_eq (as ++ u) (bs ++ v) heq]

theorem listLtb_append_left :
    ∀ (p u v : List Char), listLtb u v = true → listLtb (p ++ u) (p ++ v) = true
  | [], _, _, h => h
  | a :: p, u, v, h => by
    rw [List.cons_append, List.cons_append, listLtb_cons_of_eq _ _ rfl]
    exact listLtb_append_left p u v h

theorem listLtb_asymm :
    ∀ (u v : List Char), listLtb u v = true → listLtb v u = false
  | _, [], h => by simp [listLtb] at h
  | [], _ :: _, _ => by simp [listLtb]
  | a :: as, b :: bs, h => by
    by_cases hab : a.toNat < b.toNat
    · simp [listLtb, hab, Nat.lt_asymm hab]
    · by_cases hba : b.toNat < a.toNat
      · simp [listLtb, hab, hba] at h
      · rw [listLtb_cons_of_eq as bs (by omega)] at h
        rw [listLtb_cons_of_eq bs as (by omega)]
        exact listLtb_asymm as bs h

theorem digitToChar_mono :
    ∀ a, a < 10 → ∀ b, b < 10 → a < b →
      (digitToChar a).toNat < (digitToChar b).toNat := by decide

theorem pad2c_lt {m n : Nat} (h : m < n) (hn : n ≤ 99) :
    listLtb (pad2c m) (pad2c n) = true := by
  have h10 : m / 10 ≤ n / 10 := Nat.div_le_div_right (Nat.le_of_lt h)
  rcases Nat.lt_or_ge (m / 10) (n / 10) with hd | hd
  · exact listLtb_cons_of_lt _ _
      (digitToChar_mono _ (by omega) _ (by omega) hd)
  · have he : m / 10 = n / 10 := by omega
    have h1 : m % 10 < n % 10 := by omega
    rw [pad2c, pad2c, he, listLtb_cons_of_eq _ _ rfl]
    exact listLtb_cons_of_lt _ _
      (digitToChar_mono _ (by omega) _ (by omega) h1)

theorem pad4c_lt {m n : Nat} (h : m < n) (hn : n ≤ 9999) :
    listLtb (pad4c m) (pad4c n) = true := by
  have hsplit : m / 1000 < n / 1000 ∨ (m / 1000 = n / 1000 ∧
      (m / 100 % 10 < n / 100 % 10 ∨ (m / 100 % 10 = n / 100 % 10 ∧
        (m / 10 % 10 < n / 10 % 10 ∨ (m / 10 % 10 = n / 10 % 10 ∧
          m % 10 < n % 10))))) := by omega
  rcases hsplit with h0 | ⟨e0, h1 | ⟨e1, h2 | ⟨e2, h3⟩⟩⟩
  · exact listLtb_cons_of_lt _ _
      (digitToChar_mono _ (by omega) _ (by omega) h0)
  · rw [pad4c, pad4c, e0, listLtb_cons_of_eq _ _ rfl]
    exact listLtb_cons_of_lt _ _
      (digitToChar_mono _ (by omega) _ (by omega) h1)
  · rw [pad4c, pad4c, e0, e1, listLtb_cons_of_eq _ _ rfl, listLtb_cons_of_eq _ _ rfl]
    exact listLtb_cons_of_lt _ _
      (digitToChar_mono _ (by omega) _ (by omega) h2)
  · rw [pad4c, pad4c, e0, e1, e2, listLtb_cons_of_eq _ _ rfl,
      listLtb_cons_of_eq _ _ rfl, listLtb_cons_of_eq _ _ rfl]
    exact listLtb_cons_of_lt _ _
      (digitToChar_mono _ (by omega) _ (by omega) h3)

theorem daysInMonth_le (y m : Nat) : daysInMonth y m ≤ 31 := by
  unfold daysInMonth
  split
  · split <;> omega
  · split <;> omega

/-- Unpacked numeric content of `Date.Valid`. -/
theorem Date.Valid.bounds {d : Date} (h : d.Valid) :
    1 ≤ d.year ∧ d.year ≤ 9999 ∧ 1 ≤ d.month ∧ d.month ≤ 12 ∧
      1 ≤ d.day ∧ d.day ≤ daysInMonth d.year d.month := by
  have := h
  unfold Date.Valid isValidDate at this
  simp only [Bool.and_eq_true, decide_eq_true_eq] at this
  tauto

theorem pad2c_length (n : Nat) : (pad2c n).length = 2 := rfl

theorem pad4c_length (n : Nat) : (pad4c n).length = 4 := rfl

theorem dateChars_length (d : Date) : (dateChars d).length = 10 := by
  simp [dateChars, pad2c, pad4c]

theorem dateChars_lt {a b : Date} (ha : a.Valid) (hb : b.Valid)
    (h : Date.Lt a b) : listLtb (dateChars a) (dateChars b) = true := by
  obtain ⟨_, hay, _, ham, _, had⟩ := ha.bounds
  obtain ⟨_, hby, _, hbm, _, hbd⟩ := hb.bounds
  rcases h with hy | ⟨ey, hm | ⟨em, hd⟩⟩
  · exact listLtb_append_of_eqlen _ _ _ _ (by simp [pad4c_length])
      (pad4c_lt hy hby)
  · unfold dateChars
    rw [ey]
    have : ∀ (u v : List Char), listLtb u v = true →
        listLtb (pad4c b.year ++ '-' :: u) (pad4c b.year ++ '-' :: v) = true := by
      intro u v huv
      have := listLtb_append_left (pad4c b.year ++ ['-']) u v huv
      simpa [List.append_assoc]
    exact this _ _ (listLtb_append_of_eqlen _ _ _ _ (by simp [pad2c_length])
      (pad2c_lt hm (by omega)))
  · unfold dateChars
    rw [ey, em]
    have : ∀ (u v : List Char), listLtb u v = true →
        listLtb (pad4c b.year ++ '-' :: (pad2c b.month ++ '-' :: u))
          (pad4c b.year ++ '-' :: (pad2c b.month ++ '-' :: v)) = true := by
      intro u v huv
      have := listLtb_append_left
        (pad4c b.year ++ '-' :: (pad2c b.month ++ ['-'])) u v huv
      simpa [List.append_assoc]
    refine this _ _ (pad2c_lt hd ?_)
    have := daysInMonth_le b.year b.month
    omega

/-- The end-of-day collapse: adding one day to a valid date and then stepping
one second back from midnight lands on 23:59:59 of the original date. -/
theorem prevDay_nextDay {d : Date} (h : d.Valid) : prevDay (nextDay d) = d := by
  obtain ⟨_, _, hm1, hm2, hd1, hd2⟩ := h.bounds
  obtain ⟨y, m, dd⟩ := d
  simp only at hm1 hm2 hd1 hd2
  unfold nextDay prevDay
  by_cases hlt : dd < daysInMonth y m
  · simp only [hlt, if_pos]
    have : 1 < dd + 1 := by omega
    simp [this]
  · have hdd : dd = daysInMonth y m := by omega
    by_cases hm : m < 12
    · simp only [hlt, if_neg, if_pos hm]
      have h1 : ¬ (1:Nat) < 1 := by omega
      have h2 : 1 < m + 1 := by omega
      simp [h1, h2, hdd]
    · have hm12 : m = 12 := by omega
      simp only [hlt, if_neg, hm, if_neg]
      have h1 : ¬ (1:Nat) < 1 := by omega
      have h31 : daysInMonth y 12 = 31 := by norm_num [daysInMonth]
      simp [h1, hdd, hm12, h31]

theorem subOneSecond_midnight (d : Date) :
    subOneSecond ⟨d, 0, 0, 0⟩ = ⟨prevDay d, 23, 59, 59⟩ := rfl

/-- A date accepted by `fromisoformat` is a valid calendar date. -/
theorem fromisoformat_valid {s : String} {d : Date}
    (h : fromisoformat s = some d) : d.Valid := by
  unfold fromisoformat at h
  split at h
  · split at h
    · split at h
      · cases h; assumption
      · cases h
    · cases h
  · cases h

theorem tsChars (t : DateTime) : (dtIso t ++ "Z").toList = dtIsoChars t ++ ['Z'] := rfl

theorem dateLt_trichotomy {a b : Date} (h : ¬ Date.Lt b a) : a = b ∨ Date.Lt a b := by
  obtain ⟨y1, m1, d1⟩ := a
  obtain ⟨y2, m2, d2⟩ := b
  simp only [Date.Lt, Date.mk.injEq] at *
  omega

theorem dtIsoZ_lt_of_dateLt {t1 t2 : DateTime} (h1 : t1.date.Valid) (h2 : t2.date.Valid)
    (h : Date.Lt t1.date t2.date) :
    listLtb (dtIsoChars t1 ++ ['Z']) (dtIsoChars t2 ++ ['Z']) = true := by
  have := listLtb_append_of_eqlen (dateChars t1.date) (dateChars t2.date)
    (('T' :: (pad2c t1.hour ++ ':' :: (pad2c t1.minute ++ ':' :: pad2c t1.second))) ++ ['Z'])
    (('T' :: (pad2c t2.hour ++ ':' :: (pad2c t2.minute ++ ':' :: pad2c t2.second))) ++ ['Z'])
    (by simp [dateChars_length]) (dateChars_lt h1 h2 h)
  simpa [dtIsoChars, List.append_assoc] using this

theorem dtIsoZ_lt_of_timeLt (d : Date) {h1 m1 s1 h2 m2 s2 : Nat}
    (h : listLtb (('T' :: (pad2c h1 ++ ':' :: (pad2c m1 ++ ':' :: pad2c s1))) ++ ['Z'])
      (('T' :: (pad2c h2 ++ ':' :: (pad2c m2 ++ ':' :: pad2c s2))) ++ ['Z']) = true) :
    listLtb (dtIsoChars ⟨d, h1, m1, s1⟩ ++ ['Z'])
      (dtIsoChars ⟨d, h2, m2, s2⟩ ++ ['Z']) = true := by
  have := listLtb_append_left (dateChars d) _ _ h
  simpa [dtIsoChars, List.append_assoc] using this

/-- Claim C4: for every pair of well-formed day-granularity input dates (start
not after end), the time range produced by `input_time_range` and sent to the
clips endpoint is normalized to inclusive full-day boundaries — the start of
the start-day and the final second (23:59:59) of the end-day — both in ISO
format with the `"Z"` suffix, and no network call is made. -/
theorem claim_C4 (s e : String) (ds de : Date)
    (hs : fromisoformat s = some ds) (he : fromisoformat e = some de)
    (hle : ¬ Date.Lt de ds) :
    input_time_range s e =
      (Except.ok (dtIso ⟨ds, 0, 0, 0⟩ ++ "Z", dtIso ⟨de, 23, 59, 59⟩ ++ "Z"), []) := by
  have hvs := fromisoformat_valid hs
  have hve := fromisoformat_valid he
  have hend : subOneSecond ⟨nextDay de, 0, 0, 0⟩ = ⟨de, 23, 59, 59⟩ := by
    rw [subOneSecond_midnight, prevDay_nextDay hve]
  have hcond : strLtb (dtIso ⟨de, 23, 59, 59⟩ ++ "Z") (dtIso ⟨ds, 0, 0, 0⟩ ++ "Z") = false := by
    have hlt : listLtb ((dtIso ⟨ds, 0, 0, 0⟩ ++ "Z").toList)
        ((dtIso ⟨de, 23, 59, 59⟩ ++ "Z").toList) = true := by
      rw [tsChars, tsChars]
      rcases dateLt_trichotomy hle with heq | hlt'
      · rw [heq]
        exact dtIsoZ_lt_of_timeLt de (by decide)
      · exact dtIsoZ_lt_of_dateLt hvs hve hlt'
    exact listLtb_asymm _ _ hlt
  unfold input_time_range
  rw [hs, he]
  dsimp only
  rw [hend, hcond]
  simp

/-- Claim C5: for every date pair whose start date is after the end date, and
for every malformed input date, `input_time_range` fails fast with exit code 1
(`Except.error 1`) and performs no network call (empty trace). -/
theorem claim_C5 (s e : String)
    (h : fromisoformat s = none ∨ fromisoformat e = none ∨
      ∃ ds de, fromisoformat s = some ds ∧ fromisoformat e = some de ∧ Date.Lt de ds) :
    input_time_range s e = (Except.error 1, []) := by
  unfold input_time_range
  rcases h with h1 | h1 | ⟨ds, de, hs, he, hlt⟩
  · rcases h2 : fromisoformat e with _ | d <;> rw [h1]
  · rcases h2 : fromisoformat s with _ | d <;> rw [h1]
  · have hvs := fromisoformat_valid hs
    have hve := fromisoformat_valid he
    have hend : subOneSecond ⟨nextDay de, 0, 0, 0⟩ = ⟨de, 23, 59, 59⟩ := by
      rw [subOneSecond_midnight, prevDay_nextDay hve]
    have hcond : strLtb (dtIso ⟨de, 23, 59, 59⟩ ++ "Z") (dtIso ⟨ds, 0, 0, 0⟩ ++ "Z") = true := by
      unfold strLtb
      rw [tsChars, tsChars]
      exact dtIsoZ_lt_of_dateLt hve hvs hlt
    rw [hs, he]
    dsimp only
    rw [hend, hcond]
    simp

/-- Witness for claim C4 at the concrete dates 2024-01-01 .. 2024-01-02. -/
theorem claim_C4_witness :
    input_time_range "2024-01-01" "2024-01-02" =
      (Except.ok (dtIso ⟨⟨2024, 1, 1⟩, 0, 0, 0⟩ ++ "Z",
        dtIso ⟨⟨2024, 1, 2⟩, 23, 59, 59⟩ ++ "Z"), []) :=
  claim_C4 "2024-01-01" "2024-01-02" ⟨2024, 1, 1⟩ ⟨2024, 1, 2⟩
    (by decide) (by decide) (by decide)

/-- Witness for claim C5 at a reversed concrete date pair. -/
theorem claim_C5_witness :
    input_time_range "2024-01-02" "2024-01-01" = (Except.error 1, []) :=
  claim_C5 "2024-01-02" "2024-01-01"
    (Or.inr (Or.inr ⟨⟨2024, 1, 2⟩, ⟨2024, 1, 1⟩, by decide, by decide, by decide⟩))

/-- Counterexample to claim C1 as stated: with a non-empty stored token whose
`expires_at` is one second in the future, `is_token_valid` does perform a
remote introspection round-trip, and returns `false` when that round-trip is
rejected — so validity is not equivalent to "non-empty token and future
expiry", and the remote call is not merely an optional stricter mode. -/
theorem claim_C1_counterexample :
    cfgFuture.auth.access_token = some "tok" ∧ "tok" ≠ "" ∧
    cfgFuture.auth.expires_at = some "2024-01-01 12:00:01" ∧
    strptimeTokenFormat "2024-01-01 12:00:01" = some ⟨⟨2024, 1, 1⟩, 12, 0, 1⟩ ∧
    DateTime.ltb wReject.now ⟨⟨2024, 1, 1⟩, 12, 0, 1⟩ = true ∧
    is_token_valid cfgFuture wReject = (false, [NetEvent.validateToken "tok"]) := by
  refine ⟨rfl, by decide, rfl, by decide, by decide, ?_⟩
  rfl

/-- Claim C1 (amended): `is_token_valid` returns true iff the stored
access_token is non-empty, `expires_at` is present and parses as a timestamp
strictly in the future, and additionally the remote introspection round-trip
(always performed in that case, not an optional mode) answers HTTP 200; no
remote call is made when the local checks fail — in particular with
`expires_at` in the past it returns false without any network call. -/
theorem claim_C1 (cfg : Config) (w : World) :
    ((is_token_valid cfg w).fst = true ↔
      ∃ tok s exp, cfg.auth.access_token = some tok ∧ tok ≠ "" ∧
        cfg.auth.expires_at = some s ∧ strptimeTokenFormat s = some exp ∧
        DateTime.ltb w.now exp = true ∧ w.validateStatus = 200) ∧
    ((is_token_valid cfg w).snd = [] ↔
      ¬ ∃ tok s exp, cfg.auth.access_token = some tok ∧ tok ≠ "" ∧
        cfg.auth.expires_at = some s ∧ strptimeTokenFormat s = some exp ∧
        DateTime.ltb w.now exp = true) := by
  unfold is_token_valid
  rcases htok : cfg.auth.access_token with _ | tok
  · simp [htok]
  · by_cases he : tok = ""
    · simp [htok, he]
    · rcases hexp : cfg.auth.expires_at with _ | s
      · simp [htok, hexp, he]
      · rcases hp : strptimeTokenFormat s with _ | exp
        · simp [htok, hexp, hp, he]
        · by_cases hfut : DateTime.ltb w.now exp = true
          · simp [htok, hexp, hp, he, hfut, beq_iff_eq]
          · simp [htok, hexp, hp, he, hfut]

/-- Witness for claim C1 (amended): a run where the local checks pass and the
introspection endpoint accepts, making `is_token_valid` return true. -/
theorem claim_C1_witness : (is_token_valid cfgFuture wAccept).fst = true :=
  (claim_C1 cfgFuture wAccept).1.mpr
    ⟨"tok", "2024-01-01 12:00:01", ⟨⟨2024, 1, 1⟩, 12, 0, 1⟩,
      rfl, by decide, rfl, by decide, by decide, rfl⟩

/-! ### Helper lemmas: shape of the main-flow trace -/

theorem get_broadcaster_id_trace (w : World) (u : String) :
    (get_broadcaster_id w u).snd = [NetEvent.usersLookup u] := by
  unfold get_broadcaster_id
  rcases w.usersResponse u with _ | (_ | ⟨i, ids⟩) <;> rfl

theorem fetchClipsLoop_cons_trace (b : Option String) (l : Nat) (s e : String)
    (p : Option ClipsPage) (ps : List (Option ClipsPage)) (cur : Option String)
    (cl : List Clip) (sn : List String) :
    ∃ t, (fetchClipsLoop b l s e (p :: ps) cur cl sn).2.2 =
      NetEvent.clipsRequest b l s e cur :: t := by
  unfold fetchClipsLoop
  rcases p with _ | pg
  · exact ⟨[], rfl⟩
  · dsimp only
    rcases addClips cl sn pg.data with ⟨cl2, sn2⟩
    rcases pg.cursor with _ | c
    · exact ⟨[], rfl⟩
    · dsimp only
      by_cases hc : c = ""
      · rw [if_pos hc]
        exact ⟨[], rfl⟩
      · rw [if_neg hc]
        exact ⟨(fetchClipsLoop b l s e ps (some c) cl2 sn2).2.2, rfl⟩

theorem get_clips_first_event (w : World) (bid : Option String) (s e : String)
    (p : Option ClipsPage) (ps : List (Option ClipsPage))
    (hp : w.clipsPages 2 = p :: ps) :
    NetEvent.clipsRequest bid 2 s e none ∈ (get_clips w bid s e).snd := by
  unfold get_clips
  rcases h1 : fetchClipsLoop bid 2 s e (w.clipsPages 2) none [] [] with ⟨c1, s1, t1⟩
  rcases h2 : fetchClipsLoop bid 99 s e (w.clipsPages 99) none c1 s1 with ⟨c2, s2, t2⟩
  rw [hp] at h1
  obtain ⟨t, ht⟩ := fetchClipsLoop_cons_trace bid 2 s e p ps none [] []
  rw [h1] at ht
  dsimp only at ht
  dsimp only
  simp [ht]

/-- The trace of `mainRun` is the auth-step trace followed by the trace of
`mainAfterAuth` at the post-renewal configuration. -/
theorem mainRun_snd (cfg : Config) (w : World) (inp : Inputs) (sim : Bool) :
    ∃ t0, (mainRun cfg w inp sim).snd =
      t0 ++ (mainAfterAuth (cfgAfterRenew cfg w) w inp sim).snd := by
  unfold mainRun cfgAfterRenew
  rcases hv : is_token_valid cfg w with ⟨valid, t1⟩
  rcases hm : manage_twitch_oauth_token cfg w none none with ⟨r, cfg1, t2⟩
  cases valid <;> dsimp only <;>
    [exact ⟨t1 ++ t2, by simp⟩; exact ⟨t1 ++ [], by simp⟩]

/-- The users-lookup event always appears in the trace of the authenticated
part of `main`: nothing before it can stop the run. -/
theorem mainAfterAuth_users_mem (cfg1 : Config) (w : World) (inp : Inputs) (sim : Bool) :
    NetEvent.usersLookup (input_channel_name inp.channel_name cfg1) ∈
      (mainAfterAuth cfg1 w inp sim).snd := by
  unfold mainAfterAuth
  rcases hb : get_broadcaster_id w (input_channel_name inp.channel_name cfg1) with ⟨bidE, t3⟩
  have ht3 := get_broadcaster_id_trace w (input_channel_name inp.channel_name cfg1)
  rw [hb] at ht3
  dsimp only at ht3
  subst ht3
  simp only [hb]
  rcases bidE with n | bid
  · simp
  · rcases hr : input_time_range inp.start_date inp.end_date with ⟨res, t4⟩
    simp only [hr]
    rcases res with n | ⟨ts1, ts2⟩
    · simp
    · rcases hc : get_clips w bid ts1 ts2 with ⟨clips, t5⟩
      simp only [hc]
      by_cases hcl : clips = []
      · simp [hcl]
      · rw [if_neg hcl]
        rcases hd : download_clips w (get_user_config cfg1) sim clips [] with ⟨paths, cc, t6⟩
        simp only [hd]
        simp

/-- The users-lookup event always appears in the trace of a full run. -/
theorem mainRun_users_mem (cfg : Config) (w : World) (inp : Inputs) (sim : Bool) :
    NetEvent.usersLookup (input_channel_name inp.channel_name (cfgAfterRenew cfg w)) ∈
      (mainRun cfg w inp sim).snd := by
  obtain ⟨t0, ht⟩ := mainRun_snd cfg w inp sim
  rw [ht]
  exact List.mem_append_right t0 (mainAfterAuth_users_mem _ w inp sim)

theorem mainAfterAuth_clips_mem (cfg1 : Config) (w : World) (inp : Inputs) (sim : Bool)
    (bid : Option String) (tb : List NetEvent)
    (hb : get_broadcaster_id w (input_channel_name inp.channel_name cfg1) = (Except.ok bid, tb))
    (ts : String × String) (tr : List NetEvent)
    (hr : input_time_range inp.start_date inp.end_date = (Except.ok ts, tr))
    (p : Option ClipsPage) (ps : List (Option ClipsPage))
    (hp : w.clipsPages 2 = p :: ps) :
    NetEvent.clipsRequest bid 2 ts.1 ts.2 none ∈ (mainAfterAuth cfg1 w inp sim).snd := by
  rcases ts with ⟨ts1, ts2⟩
  unfold mainAfterAuth
  simp only [hb, hr]
  rcases hc : get_clips w bid ts1 ts2 with ⟨clips, t5⟩
  have hmem := get_clips_first_event w bid ts1 ts2 p ps hp
  rw [hc] at hmem
  dsimp only at hmem
  simp only [hc]
  by_cases hcl : clips = []
  · simp only [hcl, if_pos]
    simp [List.mem_append, hmem]
  · rw [if_neg hcl]
    rcases hd : download_clips w (get_user_config cfg1) sim clips [] with ⟨paths, cc, t6⟩
    simp only [hd]
    simp [List.mem_append, hmem]

/-- Counterexample to claim C2 as stated: with missing credentials the token
renewal does fail locally with no network call, yet the failure is not fatal
— the very same run goes on to perform the authenticated users lookup. -/
theorem claim_C2_counterexample :
    manage_twitch_oauth_token cfgEmpty wReject none none = (none, cfgEmpty, []) ∧
    NetEvent.usersLookup "chan" ∈ (mainRun cfgEmpty wReject inpFix false).snd := by
  constructor
  · rfl
  · decide

/-- Claim C2 (amended): when `client_id` or `client_secret` is absent, token
renewal fails locally without any network call and returns `None`; however the
failure is not fatal for the run — `main` discards the renewal result and
still attempts the subsequent authenticated users lookup. -/
theorem claim_C2 (cfg : Config) (w : World) (inp : Inputs) (sim : Bool)
    (h : (get_auth_config cfg).client_id = "" ∨ (get_auth_config cfg).client_secret = "") :
    manage_twitch_oauth_token cfg w none none = (none, cfg, []) ∧
    NetEvent.usersLookup (input_channel_name inp.channel_name (cfgAfterRenew cfg w)) ∈
      (mainRun cfg w inp sim).snd := by
  constructor
  · unfold manage_twitch_oauth_token
    dsimp only [pyOr]
    rw [if_pos h]
  · exact mainRun_users_mem cfg w inp sim

/-- Witness for claim C2 (amended), on the empty configuration. -/
theorem claim_C2_witness :
    manage_twitch_oauth_token cfgEmpty wAccept none none = (none, cfgEmpty, []) ∧
    NetEvent.usersLookup (input_channel_name inpFix.channel_name (cfgAfterRenew cfgEmpty wAccept)) ∈
      (mainRun cfgEmpty wAccept inpFix false).snd :=
  claim_C2 cfgEmpty wAccept inpFix false (Or.inl rfl)

/-- Claim C10: when the users-lookup request itself fails with a network or
HTTP error, `get_broadcaster_id` returns `None` (`Except.ok none`) instead of
terminating the process, and `main` proceeds to prompt for dates and fetch
clips with a `None` broadcaster id. -/
theorem claim_C10 (cfg : Config) (w : World) (inp : Inputs) (sim : Bool)
    (hch : inp.channel_name ≠ "")
    (hu : w.usersResponse inp.channel_name = none)
    (ts : String × String)
    (hr : input_time_range inp.start_date inp.end_date = (Except.ok ts, []))
    (p : Option ClipsPage) (ps : List (Option ClipsPage))
    (hp : w.clipsPages 2 = p :: ps) :
    get_broadcaster_id w inp.channel_name =
      (Except.ok none, [NetEvent.usersLookup inp.channel_name]) ∧
    NetEvent.clipsRequest none 2 ts.1 ts.2 none ∈ (mainRun cfg w inp sim).snd := by
  have hbid : get_broadcaster_id w inp.channel_name =
      (Except.ok none, [NetEvent.usersLookup inp.channel_name]) := by
    unfold get_broadcaster_id
    rw [hu]
  refine ⟨hbid, ?_⟩
  obtain ⟨t0, ht⟩ := mainRun_snd cfg w inp sim
  rw [ht]
  refine List.mem_append_right t0 ?_
  have huname : input_channel_name inp.channel_name (cfgAfterRenew cfg w) = inp.channel_name := by
    unfold input_channel_name
    rw [if_neg hch]
  exact mainAfterAuth_clips_mem _ w inp sim none _ (by rw [huname]; exact hbid)
    ts [] hr p ps hp

/-- Witness for claim C10 on the all-failing fixture world. -/
theorem claim_C10_witness :
    get_broadcaster_id wReject "chan" = (Except.ok none, [NetEvent.usersLookup "chan"]) ∧
    NetEvent.clipsRequest none 2 "2024-01-01T00:00:00Z" "2024-01-02T23:59:59Z" none ∈
      (mainRun cfgEmpty wReject inpFix false).snd :=
  claim_C10 cfgEmpty wReject inpFix false (by decide) rfl
    ("2024-01-01T00:00:00Z", "2024-01-02T23:59:59Z") rfl (some ⟨[], none⟩) [] rfl

/-! ### Helper lemmas: de-duplication invariant of the clip fetch -/

theorem addClips_inv (data : List Clip) :
    ∀ clips seen, (clips.map Clip.id).Nodup →
      (∀ x, x ∈ seen ↔ x ∈ clips.map Clip.id) →
      ((addClips clips seen data).1.map Clip.id).Nodup ∧
      ∀ x, x ∈ (addClips clips seen data).2 ↔
        x ∈ (addClips clips seen data).1.map Clip.id := by
  induction data with
  | nil => exact fun clips seen h1 h2 => ⟨h1, h2⟩
  | cons c rest ih =>
    intro clips seen h1 h2
    unfold addClips
    by_cases hc : seen.contains c.id
    · rw [if_pos hc]
      exact ih clips seen h1 h2
    · rw [if_neg hc]
      have hnotin : c.id ∉ clips.map Clip.id := by
        intro hmem
        exact hc (List.elem_iff.mpr ((h2 c.id).mpr hmem))
      apply ih
      · simp only [List.map_append, List.map_cons, List.map_nil]
        rw [List.nodup_append]
        exact ⟨h1, List.nodup_singleton _, by
          intro x hx hx'
          simp only [List.mem_singleton] at hx'
          exact hnotin (hx' ▸ hx)⟩
      · intro x
        simp only [List.map_append, List.map_cons, List.map_nil,
          List.mem_append, List.mem_singleton, h2 x]

theorem fetchClipsLoop_inv (b : Option String) (l : Nat) (s e : String) :
    ∀ (pages : List (Option ClipsPage)) (cur : Option String)
      (clips : List Clip) (seen : List String),
      (clips.map Clip.id).Nodup →
      (∀ x, x ∈ seen ↔ x ∈ clips.map Clip.id) →
      (((fetchClipsLoop b l s e pages cur clips seen).1.map Clip.id).Nodup ∧
        ∀ x, x ∈ (fetchClipsLoop b l s e pages cur clips seen).2.1 ↔
          x ∈ (fetchClipsLoop b l s e pages cur clips seen).1.map Clip.id) := by
  intro pages
  induction pages with
  | nil => exact fun cur clips seen h1 h2 => ⟨h1, h2⟩
  | cons p rest ih =>
    intro cur clips seen h1 h2
    unfold fetchClipsLoop
    rcases p with _ | pg
    · exact ⟨h1, h2⟩
    · dsimp only
      rcases ha : addClips clips seen pg.data with ⟨clips', seen'⟩
      have hinv := addClips_inv pg.data clips seen h1 h2
      rw [ha] at hinv
      dsimp only at hinv
      rcases pg.cursor with _ | c
      · exact hinv
      · dsimp only
        by_cases hcc : c = ""
        · rw [if_pos hcc]
          exact hinv
        · rw [if_neg hcc]
          rcases hf : fetchClipsLoop b l s e rest (some c) clips' seen' with ⟨c2, s2, t2⟩
          have := ih (some c) clips' seen' hinv.1 hinv.2
          rw [hf] at this
          exact this

/-- Claim C3: across the two fetch passes of `get_clips` (page size 2, then
page size 99), the merged returned sequence contains each clip id at most
once, and is sorted non-decreasing by the `created_at` timestamp. -/
theorem claim_C3 (w : World) (bid : Option String) (s e : String) :
    ((get_clips w bid s e).fst.map Clip.id).Nodup ∧
    (get_clips w bid s e).fst.Pairwise createdLe := by
  unfold get_clips
  rcases h1 : fetchClipsLoop bid 2 s e (w.clipsPages 2) none [] [] with ⟨c1, s1, t1⟩
  have inv1 := fetchClipsLoop_inv bid 2 s e (w.clipsPages 2) none [] []
    (by simp) (by simp)
  rw [h1] at inv1
  dsimp only at inv1
  rcases h2 : fetchClipsLoop bid 99 s e (w.clipsPages 99) none c1 s1 with ⟨c2, s2, t2⟩
  have inv2 := fetchClipsLoop_inv bid 99 s e (w.clipsPages 99) none c1 s1
    inv1.1 inv1.2
  rw [h2] at inv2
  dsimp only at inv2
  dsimp only
  simp only [h2]
  constructor
  · exact (((List.perm_insertionSort createdLe c2).map Clip.id).nodup_iff).mpr inv2.1
  · exact List.sorted_insertionSort createdLe c2

/-- Witness for claim C3 on a concrete world. -/
theorem claim_C3_witness :
    ((get_clips wReject none "a" "b").fst.map Clip.id).Nodup ∧
    (get_clips wReject none "a" "b").fst.Pairwise createdLe :=
  claim_C3 wReject none "a" "b"

/-- Counterexample to claim C6 as stated: an unknown or failed category
lookup is not cached, so a second call for the same id after a failure does
perform a further remote call (one `gamesRequest` event per call). -/
theorem claim_C6_counterexample :
    get_game_name [] wReject "42" = ("Unknown", [], [NetEvent.gamesRequest "42"]) ∧
    (get_game_name (get_game_name [] wReject "42").2.1 wReject "42").2.2 =
      [NetEvent.gamesRequest "42"] := by
  exact ⟨rfl, rfl⟩

/-- Claim C6 (amended): `get_game_name` checks the in-process cache first (a
hit answers locally with no remote call); on a miss it performs one remote
lookup; it returns "Unknown" on any failure, but caches only successful
lookups — after a failed or unknown lookup the cache is unchanged and a
second call for the same id performs a further remote call, while after a
success the result is cached and a second call performs none. -/
theorem claim_C6 (cache : List (String × String)) (w : World) (gid : String) :
    (∀ n, cacheLookup cache gid = some n →
      get_game_name cache w gid = (n, cache, [])) ∧
    (cacheLookup cache gid = none →
      (w.gamesResponse gid = none ∨ w.gamesResponse gid = some none) →
      get_game_name cache w gid = ("Unknown", cache, [NetEvent.gamesRequest gid]) ∧
      (get_game_name (get_game_name cache w gid).2.1 w gid).2.2 =
        [NetEvent.gamesRequest gid]) ∧
    (∀ n, cacheLookup cache gid = none → w.gamesResponse gid = some (some n) →
      get_game_name cache w gid = (n, cacheInsert cache gid n, [NetEvent.gamesRequest gid]) ∧
      get_game_name (cacheInsert cache gid n) w gid = (n, cacheInsert cache gid n, [])) := by
  refine ⟨?_, ?_, ?_⟩
  · intro n hn
    unfold get_game_name
    rw [hn]
  · intro hn hf
    have h1 : get_game_name cache w gid = ("Unknown", cache, [NetEvent.gamesRequest gid]) := by
      unfold get_game_name
      rw [hn]
      rcases hf with hf | hf <;> rw [hf]
    refine ⟨h1, ?_⟩
    rw [h1]
    dsimp only
    unfold get_game_name
    rw [hn]
    rcases hf with hf | hf <;> rw [hf]
  · intro n hn hs
    have h1 : get_game_name cache w gid =
        (n, cacheInsert cache gid n, [NetEvent.gamesRequest gid]) := by
      unfold get_game_name
      rw [hn, hs]
    refine ⟨h1, ?_⟩
    unfold get_game_name
    have hc : cacheLookup (cacheInsert cache gid n) gid = some n := by
      unfold cacheInsert cacheLookup
      rw [if_pos rfl]
    rw [hc]

/-- Witness for claim C6 (amended): a successful lookup is cached and the
second call answers from the cache. -/
theorem claim_C6_witness :
    get_game_name [] wGames "g1" =
      ("Chess", [("g1", "Chess")], [NetEvent.gamesRequest "g1"]) ∧
    get_game_name [("g1", "Chess")] wGames "g1" = ("Chess", [("g1", "Chess")], []) :=
  (claim_C6 [] wGames "g1").2.2 "Chess" rfl rfl

/-! ### Helper lemmas: download orchestrator characterization -/

theorem get_game_name_coherent (w : World) (cache : List (String × String))
    (gid : String) (h : CacheCoherent w cache) :
    (get_game_name cache w gid).1 = resolve_game w gid ∧
    CacheCoherent w (get_game_name cache w gid).2.1 := by
  unfold get_game_name
  rcases hc : cacheLookup cache gid with _ | n
  · rcases hr : w.gamesResponse gid with _ | (_ | n2) <;> dsimp only
    · exact ⟨by unfold resolve_game; rw [hr], h⟩
    · exact ⟨by unfold resolve_game; rw [hr], h⟩
    · refine ⟨by unfold resolve_game; rw [hr], ?_⟩
      intro g n' hg
      unfold cacheInsert cacheLookup at hg
      by_cases hgg : gid = g
      · rw [if_pos hgg] at hg
        cases hg
        rw [← hgg]
        exact hr
      · rw [if_neg hgg] at hg
        exact h g n' hg
  · exact ⟨by unfold resolve_game; rw [h gid n hc], h⟩

theorem get_game_name_no_download (cache : List (String × String)) (w : World)
    (gid : String) :
    ((get_game_name cache w gid).2.2).filter NetEvent.isDownload = [] := by
  unfold get_game_name
  rcases cacheLookup cache gid with _ | n
  · rcases w.gamesResponse gid with _ | (_ | n2) <;> rfl
  · rfl

theorem download_clips_spec (w : World) (ucfg : UserConfig) (sim : Bool) :
    ∀ (clips : List Clip) (cache : List (String × String)), CacheCoherent w cache →
      (download_clips w ucfg sim clips cache).1 =
        (clips.filter fun c => hasEssential c &&
          (w.fileExists (derived_path w ucfg c) || sim || w.ytOk (c.url.getD ""))).map
          (derived_path w ucfg) ∧
      (download_clips w ucfg sim clips cache).2.2.filter NetEvent.isDownload =
        (clips.filter fun c => hasEssential c &&
          !w.fileExists (derived_path w ucfg c) && !sim).map
          (fun c => NetEvent.download (c.url.getD "")) := by
  intro clips
  induction clips with
  | nil => exact fun cache _ => ⟨rfl, rfl⟩
  | cons clip rest ih =>
    intro cache hcoh
    rcases hg : get_game_name cache w (clip.game_id.getD "0") with ⟨gname, cache1, ev1⟩
    have hco := get_game_name_coherent w cache (clip.game_id.getD "0") hcoh
    rw [hg] at hco
    dsimp only at hco
    obtain ⟨hgn, hco1⟩ := hco
    have hev1 := get_game_name_no_download cache w (clip.game_id.getD "0")
    rw [hg] at hev1
    dsimp only at hev1
    obtain ⟨ihp, ihd⟩ := ih cache1 hco1
    unfold download_clips
    simp only [hg]
    have hpath : pathJoin (ucfg.dl_folder.getD "") (fileNameOf ucfg.spacer clip gname) =
        derived_path w ucfg clip := by
      rw [hgn]
      rfl
    by_cases hE : clip.url.getD "" = "" ∨ clipDate clip = ""
    · rw [if_pos hE]
      have hEb : hasEssential clip = false := by
        rcases hE with h | h <;> simp [hasEssential, h]
      constructor <;>
        simp [List.filter_cons, List.filter_append, hev1, hEb, ihp, ihd]
    · rw [if_neg hE]
      rw [not_or] at hE
      have hEb : hasEssential clip = true := by
        simp [hasEssential, hE.1, hE.2]
      rw [hpath]
      cases hX : w.fileExists (derived_path w ucfg clip)
      · cases hS : sim
        · rw [hS] at ihp ihd
          cases hY : w.ytOk (clip.url.getD "")
          · constructor <;>
              simp [List.filter_cons, List.filter_append, hev1, hEb, hX, hY,
                ihp, ihd, NetEvent.isDownload]
          · constructor <;>
              simp [List.filter_cons, List.filter_append, hev1, hEb, hX, hY,
                ihp, ihd, NetEvent.isDownload]
        · rw [hS] at ihp ihd
          constructor <;>
            simp [List.filter_cons, List.filter_append, hev1, hEb, hX,
              ihp, ihd, NetEvent.isDownload]
      · constructor <;>
          simp [List.filter_cons, List.filter_append, hev1, hEb, hX,
            ihp, ihd, NetEvent.isDownload]

theorem cacheCoherent_nil (w : World) : CacheCoherent w [] := by
  intro g n hg
  simp [cacheLookup] at hg

/-- Claim C7: for every clip whose derived target path already exists on disk
(here: all of them), `download_clips` records that path in its output, does
not invoke the transfer collaborator, and does not error; hence re-running
the same batch with all files present yields the full path list with zero
transfer-collaborator invocations. -/
theorem claim_C7 (w : World) (ucfg : UserConfig) (clips : List Clip) (sim : Bool)
    (h : ∀ c ∈ clips, hasEssential c = true →
      w.fileExists (derived_path w ucfg c) = true) :
    (download_clips w ucfg sim clips []).1 =
      (clips.filter hasEssential).map (derived_path w ucfg) ∧
    (download_clips w ucfg sim clips []).2.2.filter NetEvent.isDownload = [] := by
  obtain ⟨hp, hd⟩ := download_clips_spec w ucfg sim clips [] (cacheCoherent_nil w)
  constructor
  · rw [hp]
    congr 1
    apply List.filter_congr
    intro x hx
    by_cases hE : hasEssential x = true
    · simp [hE, h x hx hE]
    · simp [Bool.eq_false_iff.mpr hE]
  · rw [hd]
    have hnil : (clips.filter fun c => hasEssential c &&
        !w.fileExists (derived_path w ucfg c) && !sim) = [] := by
      rw [List.filter_eq_nil_iff]
      intro c hc
      by_cases hE : hasEssential c = true
      · simp [hE, h c hc hE]
      · simp [Bool.eq_false_iff.mpr hE]
    rw [hnil]
    rfl

/-- Witness for claim C7: one fully-populated clip whose target path exists. -/
theorem claim_C7_witness :
    (download_clips wFiles ucfgFix false [clipFix] []).1 =
      ([clipFix].filter hasEssential).map (derived_path wFiles ucfgFix) ∧
    (download_clips wFiles ucfgFix false [clipFix] []).2.2.filter NetEvent.isDownload = [] :=
  claim_C7 wFiles ucfgFix [clipFix] false (fun _ _ _ => rfl)

/-- Claim C8: in simulation mode, the transfer collaborator is invoked zero
times, and the returned path list is exactly the derived paths of the clips
whose essential fields (URL, date) are present, in input order — so its
length is the input length minus the clips with missing essential fields. -/
theorem claim_C8 (w : World) (ucfg : UserConfig) (clips : List Clip) :
    (download_clips w ucfg true clips []).1 =
      (clips.filter hasEssential).map (derived_path w ucfg) ∧
    (download_clips w ucfg true clips []).1.length =
      (clips.filter hasEssential).length ∧
    (download_clips w ucfg true clips []).2.2.filter NetEvent.isDownload = [] := by
  obtain ⟨hp, hd⟩ := download_clips_spec w ucfg true clips [] (cacheCoherent_nil w)
  have hfilter : (clips.filter fun c => hasEssential c &&
      (w.fileExists (derived_path w ucfg c) || true || w.ytOk (c.url.getD ""))) =
      clips.filter hasEssential := by
    apply List.filter_congr
    intro x _
    simp
  refine ⟨?_, ?_, ?_⟩
  · rw [hp, hfilter]
  · rw [hp, hfilter, List.length_map]
  · rw [hd]
    have hnil : (clips.filter fun c => hasEssential c &&
        !w.fileExists (derived_path w ucfg c) && !true) = [] := by
      simp
    rw [hnil]
    rfl

/-! ### Helper lemmas: sanitization -/

theorem space_not_word {c : Char} (h : pyIsSpace c = true) : pyIsWordChar c = false := by
  simp only [pyIsSpace, Bool.or_eq_true, decide_eq_true_eq] at h
  rcases h with ((((h | h) | h) | h) | h) | h <;> subst h <;> decide

theorem filter_dropWhile_of_imp {w p : Char → Bool}
    (hw : ∀ c, p c = true → w c = false) :
    ∀ l : List Char, List.filter w (l.dropWhile p) = List.filter w l := by
  intro l
  induction l with
  | nil => rfl
  | cons a l ih =>
    simp only [List.dropWhile_cons]
    by_cases hp : p a = true
    · simp [hp, ih, List.filter_cons, hw a hp]
    · simp [hp]

theorem sanitize_toList (s : String) :
    (sanitize s).toList =
      (((s.toList.filter fun c => pyIsWordChar c || pyIsSpace c).dropWhile
        pyIsSpace).reverse.dropWhile pyIsSpace).reverse := rfl

/-- Counterexample to claim C9 as stated: the code's sanitization keeps the
underscore, which lies outside the alphanumeric/whitespace set (the regex
`\w` also matches `_`), and exact removal on the claim's own example would
keep the trailing space that `.strip()` removes. -/
theorem claim_C9_counterexample :
    sanitize "a_b" = "a_b" ∧ sanitizeClaim "a_b" = "ab" ∧
    sanitize "a_b" ≠ sanitizeClaim "a_b" ∧
    sanitizeClaim "Epic Win!! :)" = "Epic Win " ∧
    sanitize "Epic Win!! :)" = "Epic Win" := by decide

/-- Claim C9 (amended): sanitization removes exactly the characters outside
the word-character-or-whitespace set (word characters being alphanumerics and
the underscore) and then strips leading/trailing whitespace: every remaining
character is a word character or whitespace, every word character of the
input is kept in order, the output is a subsequence of the input, and
"Epic Win!! :)" sanitizes to "Epic Win". -/
theorem claim_C9 (s : String) :
    ((sanitize s).toList.all fun c => pyIsWordChar c || pyIsSpace c) = true ∧
    (sanitize s).toList.filter pyIsWordChar = s.toList.filter pyIsWordChar ∧
    (sanitize s).toList.Sublist s.toList ∧
    sanitize "Epic Win!! :)" = "Epic Win" := by
  have hsub : List.Sublist (sanitize s).toList
      (s.toList.filter fun c => pyIsWordChar c || pyIsSpace c) := by
    rw [sanitize_toList]
    have h2 : List.Sublist
        ((s.toList.filter fun c => pyIsWordChar c || pyIsSpace c).dropWhile pyIsSpace)
        (s.toList.filter fun c => pyIsWordChar c || pyIsSpace c) :=
      List.dropWhile_sublist pyIsSpace
    refine List.Sublist.trans ?_ h2
    rw [← List.reverse_sublist, List.reverse_reverse]
    exact List.dropWhile_sublist pyIsSpace
  refine ⟨?_, ?_, ?_, by decide⟩
  · rw [List.all_eq_true]
    intro c hc
    exact (List.mem_filter.mp (hsub.subset hc)).2
  · rw [sanitize_toList, List.filter_reverse,
      filter_dropWhile_of_imp (fun c h => space_not_word h),
      List.filter_reverse, List.reverse_reverse,
      filter_dropWhile_of_imp (fun c h => space_not_word h),
      List.filter_filter]
    apply List.filter_congr
    intro x _
    cases hw : pyIsWordChar x <;> simp [hw]
  · exact hsub.trans (List.filter_sublist s.toList)

end TcDl
